import Mathlib

/-!
Shallow embedding of the hampuff-sms repository core:
phone normalization and the registration store (`models.py`),
the SMS command classifier (`services/sms_service.py`), and
the propagation-data provider (`hampuff_lib/hampuff_lib.py`).

Python strings are modelled as Lean `String`, operating on the
character list `String.data`; Python string methods (`lower`, `upper`,
`strip`, `split`, `in`, `startswith`) are embedded as explicit
list-level functions below so that their behaviour is fully visible.
-/

namespace HampuffSms

/-- Python `s.lower()` (ASCII case folding, which covers every string the
service compares). -/
def strLower (s : String) : String := ⟨s.data.map Char.toLower⟩

/-- Python `s.upper()`. -/
def strUpper (s : String) : String := ⟨s.data.map Char.toUpper⟩

/-- Python `s.startswith(pre)`. -/
def strStartsWith (s pre : String) : Bool := pre.data.isPrefixOf s.data

/-- Predicate `listContains pat s` is true when `pat` occurs contiguously in `s`. -/
def listContains (pat : List Char) : List Char → Bool
  | [] => pat.isEmpty
  | c :: cs => pat.isPrefixOf (c :: cs) || listContains pat cs

/-- Python `pat in s` (substring containment). -/
def strContains (s pat : String) : Bool := listContains pat.data s.data

/-- Python `s.strip()`: drop whitespace from both ends. -/
def strTrim (s : String) : String :=
  ⟨((s.data.dropWhile Char.isWhitespace).reverse.dropWhile Char.isWhitespace).reverse⟩

/-- Helper for `splitWs`: walks the characters, `acc` holds the current
word reversed. -/
def splitWsGo : List Char → List Char → List String
  | [], acc => if acc.isEmpty then [] else [⟨acc.reverse⟩]
  | c :: cs, acc =>
    if c.isWhitespace then
      if acc.isEmpty then splitWsGo cs [] else ⟨acc.reverse⟩ :: splitWsGo cs []
    else splitWsGo cs (c :: acc)

/-- Python `s.split()` with no argument: split on runs of whitespace,
discarding empty pieces. -/
def splitWs (s : String) : List String := splitWsGo s.data []

/-! ## Phone normalization (`models.py`, `RegistrationDatabase.normalize_phone_number`)

The code delegates parsing/validation/E.164 formatting to the external
`phonenumbers` numbering-plan library.  `libParse` models
`phonenumbers.parse` on the cleaned strings the code feeds it: it
succeeds exactly on a `+` followed by at least two digits, and the
parsed value is represented by that canonical `+<digits>` string itself,
so `libFormatE164` (modelling `format_number(·, E164)`) is the identity
on parsed values.  Validity (`phonenumbers.is_valid_number`) is a
numbering-plan table we do not reproduce; it is threaded through every
definition as an oracle `isValid : String → Bool`. -/

/-- Model of `phonenumbers.parse` on cleaned input (see module note). -/
def libParse (s : String) : Option String :=
  match s.data with
  | '+' :: rest => if rest.all Char.isDigit && decide (2 ≤ rest.length) then some s else none
  | _ => none

/-- Model of `phonenumbers.format_number(parsed, E164)`: parsed values are
already the canonical `+<countrycode><national>` string. -/
def libFormatE164 (s : String) : String := s

/-- Python `''.join(c for c in phone_number if c.isdigit() or c == '+')`. -/
def cleanPhone (phone : String) : String :=
  ⟨phone.data.filter (fun c => c.isDigit || c == '+')⟩

/-- The `if not cleaned.startswith('+')` prefixing ladder of
`normalize_phone_number`. -/
def prefixPhone (cleaned : String) : String :=
  if strStartsWith cleaned "+" then cleaned
  else if strStartsWith cleaned "1" && cleaned.data.length == 11 then "+" ++ cleaned
  else if cleaned.data.length == 10 then "+1" ++ cleaned
  else "+1" ++ cleaned

/-- Model of `RegistrationDatabase.normalize_phone_number`, parameterized by the
numbering-plan validity oracle. -/
def normalize_phone_number (isValid : String → Bool) (phone : String) : Except String String :=
  let cleaned := prefixPhone (cleanPhone phone)
  match libParse cleaned with
  | none => .error "Could not parse phone number"
  | some parsed =>
    if isValid parsed then .ok (libFormatE164 parsed)
    else if strStartsWith cleaned "+1555" && cleaned.data.length == 12 then
      .ok (libFormatE164 parsed)
    else .error "Invalid phone number"

/-! ## Registration store (`models.py`, `RegistrationDatabase`)

One row of the `registrations` table.  `registration_date` /
`last_updated` SQL timestamps are modelled by a logical clock (`Nat`);
`ip_address` / `user_agent` audit metadata are omitted (no claim touches
them). -/

structure Registration where
  id : Nat
  full_name : String
  call_sign : String
  phone_number : String
  phone_normalized : String
  opted_in : Bool
  registration_date : Nat
  last_updated : Nat
deriving Repr, DecidableEq

/-- The database state: the `registrations` table in insertion order,
plus the AUTOINCREMENT counter and the logical clock. -/
structure Db where
  rows : List Registration
  nextId : Nat
  clock : Nat
deriving Repr, DecidableEq

/-- Embeds `RegistrationDatabase.get_user_by_phone`: normalizes its argument
(returning `none` on normalization failure), then looks the normalized
number up in the `phone_normalized` column. -/
def get_user_by_phone (isValid : String → Bool) (db : Db) (phone : String) :
    Option Registration :=
  match normalize_phone_number isValid phone with
  | .error _ => none
  | .ok n => db.rows.find? (fun r => r.phone_normalized == n)

/-- Embeds `RegistrationDatabase.register_user`: normalize, lookup-before-insert,
then INSERT.  Returns the new database plus the created row. -/
def register_user (isValid : String → Bool) (db : Db)
    (full_name call_sign phone_number : String) (opted_in : Bool) :
    Except String (Db × Registration) :=
  match normalize_phone_number isValid phone_number with
  | .error e => .error e
  | .ok normalized =>
    if (get_user_by_phone isValid db normalized).isSome then
      .error "Phone number already registered"
    else
      let r : Registration :=
        { id := db.nextId, full_name := full_name, call_sign := call_sign,
          phone_number := phone_number, phone_normalized := normalized,
          opted_in := opted_in, registration_date := db.clock,
          last_updated := db.clock }
      .ok ({ rows := db.rows ++ [r], nextId := db.nextId + 1, clock := db.clock + 1 }, r)

/-- Embeds `RegistrationDatabase.update_opt_in_status`: UPDATE every row whose
`phone_normalized` matches, bumping `last_updated`; the returned Bool is
`cursor.rowcount > 0`, i.e. whether any row matched the WHERE clause
(SQLite counts a matched row even when the stored value is unchanged). -/
def update_opt_in_status (isValid : String → Bool) (db : Db)
    (phone : String) (opted_in : Bool) : Db × Bool :=
  match normalize_phone_number isValid phone with
  | .error _ => (db, false)
  | .ok n =>
    let rows := db.rows.map (fun r =>
      if r.phone_normalized == n then
        { r with opted_in := opted_in, last_updated := db.clock }
      else r)
    ({ rows := rows, nextId := db.nextId, clock := db.clock + 1 },
      db.rows.any (fun r => r.phone_normalized == n))

/-- Embeds `RegistrationDatabase.is_user_opted_in`. -/
def is_user_opted_in (isValid : String → Bool) (db : Db) (phone : String) : Bool :=
  match get_user_by_phone isValid db phone with
  | some u => u.opted_in
  | none => false

/-- Embeds `RegistrationDatabase.is_user_registered`. -/
def is_user_registered (isValid : String → Bool) (db : Db) (phone : String) : Bool :=
  (get_user_by_phone isValid db phone).isSome

/-- The operations the registration store exposes that can change state;
the read-only queries (`get_*`, `is_*`) never write. -/
inductive DbOp where
  | registerOp (full_name call_sign phone_number : String) (opted_in : Bool)
  | setOptInOp (phone : String) (opted_in : Bool)
deriving Repr, DecidableEq

/-- State transition of one store operation (a failed `register_user`
leaves the database unchanged: the error is raised before the INSERT). -/
def dbStep (isValid : String → Bool) (db : Db) : DbOp → Db
  | .registerOp fn cs ph oi =>
    match register_user isValid db fn cs ph oi with
    | .ok (db', _) => db'
    | .error _ => db
  | .setOptInOp ph oi => (update_opt_in_status isValid db ph oi).1

/-- The uniqueness invariant: no two rows share a `phone_normalized`
(the column carries a UNIQUE constraint in `_init_database`). -/
def DbInv (db : Db) : Prop := (db.rows.map Registration.phone_normalized).Nodup

instance (db : Db) : Decidable (DbInv db) := by unfold DbInv; infer_instance

/-! ## Hampuff data provider (`hampuff_lib/hampuff_lib.py`)

The `pytz` timezone objects in `TIMEZONE_MAP` are represented by an
enumeration of the nine distinct underlying zone rules; equal `pytz`
objects (`pytz.timezone` caches per zone name) become equal
constructors. -/

inductive TZRule where
  | usEastern | usCentral | usMountain | usPacific | usAlaska | usHawaii
  | americaPuertoRico | pacificGuam | utc
deriving Repr, DecidableEq

/-- Value of `str(timezone)` for the corresponding `pytz` object. -/
def tzStr : TZRule → String
  | .usEastern => "US/Eastern"
  | .usCentral => "US/Central"
  | .usMountain => "US/Mountain"
  | .usPacific => "US/Pacific"
  | .usAlaska => "US/Alaska"
  | .usHawaii => "US/Hawaii"
  | .americaPuertoRico => "America/Puerto_Rico"
  | .pacificGuam => "Pacific/Guam"
  | .utc => "UTC"

/-- Embeds `HampuffDataProvider.TIMEZONE_MAP` in its source order (a Python dict
with pairwise distinct keys, so an association list is faithful). -/
def TIMEZONE_MAP : List (String × TZRule) :=
  [("EST", .usEastern), ("EDT", .usEastern),
   ("CST", .usCentral), ("CDT", .usCentral),
   ("MST", .usMountain), ("MDT", .usMountain),
   ("PST", .usPacific), ("PDT", .usPacific),
   ("AKST", .usAlaska), ("AKDT", .usAlaska),
   ("HST", .usHawaii),
   ("AST", .americaPuertoRico),
   ("ChST", .pacificGuam), ("GST", .pacificGuam),
   ("UTC", .utc), ("GMT", .utc)]

/-- Embeds `HampuffDataProvider._get_timezone_from_code`: exact-case lookup in
`TIMEZONE_MAP` first, then a lookup of the upper-cased code in the
upper-cased map (the Python dict comprehension; its upper-cased keys are
pairwise distinct, so first-match association lookup is faithful).
The `ValueError` for unsupported codes is modelled as `.error ()`. -/
def get_timezone_from_code (code : String) : Except Unit TZRule :=
  match TIMEZONE_MAP.lookup code with
  | some tz => .ok tz
  | none =>
    match (TIMEZONE_MAP.map (fun p => (strUpper p.1, p.2))).lookup (strUpper code) with
    | some tz => .ok tz
    | none => .error ()

/-- Embeds `HampuffDataProvider._validate_hampuff_args` (the two `ValueError`
branches collapse to `false`; the `isinstance` check is vacuous since
the argument is a string by type). -/
def validate_hampuff_args (args : String) : Bool :=
  args.data.length == 8 && strStartsWith (strLower args) "hampuff"

/-- Embeds `HampuffDataProvider._get_timezone`: inspects `hampuff_args[7]`
(an out-of-range index, impossible after validation, is modelled as an
error). -/
def legacy_timezone (args : String) : Except Unit TZRule :=
  match args.data.get? 7 with
  | none => .error ()
  | some c =>
    if c.toLower == 'e' then .ok .usEastern
    else if c.toLower == 'p' then .ok .usPacific
    else .error ()

/-- The `<solardata>` record of the external feed
(`_fetch_solar_data`'s result): each field is `none` when absent from
the XML.  The network fetch itself is an external collaborator; claims
quantify over the record it produced. -/
structure SolarData where
  updated : Option String
  solarflux : Option String
  aindex : Option String
  kindex : Option String
  sunspots : Option String
  muf : Option String
  xray : Option String
  solarwind : Option String
deriving Repr, DecidableEq

/-- Python `str(timezone).split('/')[-1] if '/' in str(timezone) else str(timezone)`. -/
def tzDisplayName (tz : TZRule) : String :=
  let s := tzStr tz
  if strContains s "/" then ((s.splitOn "/").getLastD s) else s

/-- Embeds `HampuffDataProvider._format_hampuff_response`, parameterized by
`parseUpdate`, the model of `_parse_update_time` (Python `strptime` of
`'%d %b %Y %H%M %Z'` plus `pytz` conversion — external date machinery;
`none` models its `ValueError` on an unparsable timestamp).  A missing
`updated` field raises `KeyError`, caught and re-raised as the
incomplete-data `ValueError`; both failures are `.error ()`. -/
def format_hampuff_response (parseUpdate : String → TZRule → Option String)
    (solar : SolarData) (tz : TZRule) : Except Unit String :=
  match solar.updated with
  | none => .error ()
  | some u =>
    match parseUpdate u tz with
    | none => .error ()
    | some t =>
      .ok ("[Hampuff - " ++ tzDisplayName tz ++ "] Updated: " ++ t ++ "\n" ++
        "\tSolar Flux  = " ++ solar.solarflux.getD "N/A" ++ "\n" ++
        "\tA Index     = " ++ solar.aindex.getD "N/A" ++ "\n" ++
        "\tK Index     = " ++ solar.kindex.getD "N/A" ++ "\n" ++
        "\tSunspot #   = " ++ solar.sunspots.getD "N/A" ++ "\n" ++
        "\tMUF         = " ++ solar.muf.getD "N/A" ++ "\n" ++
        "\tXRay        = " ++ solar.xray.getD "N/A" ++ "\n" ++
        "\tSolar Winds = " ++ solar.solarwind.getD "N/A")

/-- Embeds `HampuffDataProvider.get_hampuff_data_for_timezone`: resolve the
code, then fetch and format.  `fetchFormat tz` stands for
`_format_hampuff_response(_fetch_solar_data(), tz)` — the fetch is the
external feed, so the composed result is an oracle per zone. -/
def get_hampuff_data_for_timezone (fetchFormat : TZRule → Except Unit String)
    (code : String) : Except Unit String := do
  let tz ← get_timezone_from_code code
  fetchFormat tz

/-- Embeds `HampuffDataProvider.get_hampuff_data` (legacy entry point):
validate, resolve the legacy zone, then fetch and format. -/
def get_hampuff_data (fetchFormat : TZRule → Except Unit String)
    (args : String) : Except Unit String := do
  if validate_hampuff_args args then
    let tz ← legacy_timezone args
    fetchFormat tz
  else .error ()

/-! ## SMS handler (`services/sms_service.py`, `SMSHandler`)

Reply texts, as in the source (`config.py` for the configured ones). -/

def MSG_NO_BODY : String := "No message body received"

def MSG_UNREGISTERED_CONFIRM : String :=
  "You have been unregistered from SMS service. You will no longer receive messages. Reply START to re-register."

def MSG_NO_ACTION : String := "You are not currently registered. No action needed."

def MSG_UNAVAILABLE : String := "Service temporarily unavailable. Please try again later."

def MSG_REGISTERED : String :=
  "You have been registered for SMS service. Send a ham radio propagation query to get started!"

def MSG_NEED_REGISTRATION : String :=
  "You need to complete registration first. Please visit www.hampuff.com/register to register with your name and call sign."

def MSG_NOT_OPTED_IN : String :=
  "You are not registered for SMS service. Please visit www.hampuff.com/register to opt-in."

/-- Embeds `Config.CONSENT_MESSAGE`. -/
def CONSENT_MESSAGE : String := "Your SMS request provides consent to send the reply."

/-- Embeds `Config.AIRPUFF_MESSAGE`. -/
def AIRPUFF_MESSAGE : String :=
  "Wrong number. That might be an airport so please text Airpuff at sms://+1-802-247-7833 / [802-AIR-PUFF]"

/-- Embeds `Config.DEFAULT_WRONG_NUMBER_MESSAGE`. -/
def DEFAULT_WRONG_NUMBER_MESSAGE : String := "Wrong number. Please waste someone else's time."

/-- Embeds `SMSHandler._get_help_message` (static text). -/
def helpMessage : String :=
  "HamPuff SMS Commands:\n\nPROPAGATION:\n• prop [TIMEZONE] - Get solar propagation data\n• propagation [TIMEZONE] - Same as above\n• hampuffe - Legacy (Eastern time)\n• hampuffp - Legacy (Pacific time)\n\nREGISTRATION:\n• START or REGISTER - Opt-in to SMS service\n• STOP or UNREGISTER - Opt-out from SMS service\n\nSUPPORTED TIMEZONES:\nUS Continental: EST, EDT, CST, CDT, MST, MDT, PST, PDT\nAlaska: AKST, AKDT\nHawaii: HST\nPuerto Rico: AST\nGuam: ChST, GST\nUniversal: UTC, GMT\n\nEXAMPLES:\n• prop EST\n• propagation PDT\n• prop HST\n\nHELP:\n• HELP or ? - Show this message"

/-- The `valid_timezones` list inside `_parse_propagation_command`
(its own list, distinct from `TIMEZONE_MAP`). -/
def valid_timezones : List String :=
  ["EST", "EDT", "CST", "CDT", "MST", "MDT", "PST", "PDT",
   "AKST", "AKDT", "HST", "AST", "ChST", "GST", "UTC", "GMT"]

/-- Embeds `SMSHandler._parse_propagation_command`. -/
def parse_propagation_command (bodyLower : String) : Option String :=
  match splitWs bodyLower with
  | p0 :: p1 :: _ =>
    if p0 == "prop" || p0 == "propagation" then
      let tzCode := strUpper p1
      if valid_timezones.contains tzCode then some tzCode else none
    else none
  | _ => none

/-- Embeds `SMSHandler._generate_response` (step 6 of the classifier).
`fetchFormat` is the fetch-and-format oracle of
`get_hampuff_data_for_timezone` / `get_hampuff_data`. -/
def generate_response (fetchFormat : TZRule → Except Unit String)
    (body bodyLower : String) : String :=
  if strContains bodyLower "fuck" then "Go fuck yourself, too"
  else if strContains bodyLower "shit" then "Go shit your pants"
  else if bodyLower.data.length == 4 then AIRPUFF_MESSAGE
  else
    match parse_propagation_command bodyLower with
    | some tzCode =>
      match get_hampuff_data_for_timezone fetchFormat tzCode with
      | .ok d => d ++ "\n\n" ++ CONSENT_MESSAGE
      | .error _ =>
        "Sorry, unable to retrieve hampuff data for timezone " ++ tzCode ++
          ". Supported timezones: EST, EDT, CST, CDT, MST, MDT, PST, PDT, AKST, AKDT, HST, AST, ChST, GST, UTC, GMT."
    | none =>
      if strContains bodyLower "hampuff" then
        match get_hampuff_data fetchFormat body with
        | .ok d => d ++ "\n\n" ++ CONSENT_MESSAGE
        | .error _ => "Sorry, unable to retrieve hampuff data at this time."
      else DEFAULT_WRONG_NUMBER_MESSAGE

/-- The registration-store calls `handle_sms_request` makes for the
incoming sender, with `.error ()` modelling a raised database exception.
Each request makes each call at most once, so the replies depend only on
these results. -/
structure SmsBackend where
  updateOptIn : String → Bool → Except Unit Bool
  getUser : String → Except Unit Bool
  isOptedIn : String → Except Unit Bool

/-- Steps 4–6 of `handle_sms_request`: the HELP command, the opt-in gate
(fail closed on a database error), then content classification.  Reached
both after the STOP/START command checks fail and on the START
fall-through (existing user whose `update_opt_in_status` reports no row
matched). -/
def afterCommandsFlow (backend : SmsBackend) (fetchFormat : TZRule → Except Unit String)
    (sender body bodyLower : String) : String :=
  if bodyLower == "help" || bodyLower == "?" then helpMessage
  else
    match backend.isOptedIn sender with
    | .error _ => MSG_UNAVAILABLE
    | .ok false => MSG_NOT_OPTED_IN
    | .ok true => generate_response fetchFormat body bodyLower

/-- Embeds `SMSHandler.handle_sms_request`, with the TwiML envelope
(`_create_response`) stripped: the returned string is the reply text. -/
def handle_sms_request (backend : SmsBackend) (fetchFormat : TZRule → Except Unit String)
    (fullBody sender : String) : String :=
  if fullBody == "" then MSG_NO_BODY
  else
    let body := strTrim fullBody
    let bodyLower := strLower body
    if bodyLower == "stop" || bodyLower == "unregister" then
      match backend.updateOptIn sender false with
      | .ok true => MSG_UNREGISTERED_CONFIRM
      | .ok false => MSG_NO_ACTION
      | .error _ => MSG_UNAVAILABLE
    else if bodyLower == "start" || bodyLower == "register" then
      match backend.getUser sender with
      | .error _ => MSG_UNAVAILABLE
      | .ok false => MSG_NEED_REGISTRATION
      | .ok true =>
        match backend.updateOptIn sender true with
        | .error _ => MSG_UNAVAILABLE
        | .ok true => MSG_REGISTERED
        | .ok false => afterCommandsFlow backend fetchFormat sender body bodyLower
    else afterCommandsFlow backend fetchFormat sender body bodyLower

/-- The backend view a request sees over a concrete registration
database when no database exception occurs. -/
def dbBackend (isValid : String → Bool) (db : Db) : SmsBackend where
  updateOptIn := fun p b => .ok (update_opt_in_status isValid db p b).2
  getUser := fun p => .ok (get_user_by_phone isValid db p).isSome
  isOptedIn := fun p => .ok (is_user_opted_in isValid db p)

/-! ## Concrete sample data used by witnesses and counterexamples -/

/-- A registered user (the synthetic test number of `test_ci.py`). -/
def sampleRow (optIn : Bool) : Registration :=
  { id := 1, full_name := "John Doe", call_sign := "W1ABC",
    phone_number := "(555) 123-4567", phone_normalized := "+15551234567",
    opted_in := optIn, registration_date := 0, last_updated := 0 }

/-- A one-user database. -/
def sampleDb (optIn : Bool) : Db := { rows := [sampleRow optIn], nextId := 2, clock := 1 }

/-- Validity oracle accepting every parsed number. -/
def alwaysValid : String → Bool := fun _ => true

/-- Fetch-and-format oracle that always succeeds. -/
def fetchOk : TZRule → Except Unit String := fun _ => .ok "SOLAR-REPORT"

/-- Fetch-and-format oracle that always fails (feed down / malformed). -/
def fetchErr : TZRule → Except Unit String := fun _ => .error ()

/-- A backend whose every store call raises. -/
def errBackend : SmsBackend :=
  { updateOptIn := fun _ _ => .error (), getUser := fun _ => .error (),
    isOptedIn := fun _ => .error () }

/-- A backend for a sender who is registered and opted in. -/
def optedInBackend : SmsBackend :=
  { updateOptIn := fun _ _ => .ok true, getUser := fun _ => .ok true,
    isOptedIn := fun _ => .ok true }

/-- The sixteen upper-cased codes of the timezone vocabulary. -/
def upperTimezoneCodes : List String :=
  ["EST", "EDT", "CST", "CDT", "MST", "MDT", "PST", "PDT",
   "AKST", "AKDT", "HST", "AST", "CHST", "GST", "UTC", "GMT"]

/-- A feed snapshot with a timestamp but every data field absent. -/
def solarAllMissing : SolarData :=
  { updated := some "26 Sep 2023 1830 GMT", solarflux := none, aindex := none,
    kindex := none, sunspots := none, muf := none, xray := none, solarwind := none }

/-- A backend for a sender who is registered in no database. -/
def notOptedInBackend : SmsBackend :=
  { updateOptIn := fun _ _ => .ok false, getUser := fun _ => .ok false,
    isOptedIn := fun _ => .ok false }

/-- The empty registration database. -/
def emptyDb : Db := { rows := [], nextId := 1, clock := 0 }

/-- The success condition of the legacy `hampuff` command, read off the
case-folded body: exactly 8 characters, starting with `hampuff`, with
`e` or `p` as the 8th character. -/
def legacyCommandOk (body : String) : Prop :=
  body.data.length = 8 ∧ strStartsWith (strLower body) "hampuff" = true ∧
    ∃ c, body.data.get? 7 = some c ∧ (c.toLower = 'e' ∨ c.toLower = 'p')

/-- Whether a resolver result is a success. -/
def tzResolveOk : Except Unit TZRule → Bool
  | .ok _ => true
  | .error _ => false

/-! ## Helper lemmas -/

theorem strExt {a b : String} (h : a.data = b.data) : a = b := by
  cases a; cases b; exact congrArg String.mk h

theorem strAppend_data (a b : String) : (a ++ b).data = a.data ++ b.data := by
  cases a; cases b; rfl

theorem cleanPhone_digits {d : List Char} (hd : d.all Char.isDigit = true) :
    cleanPhone ⟨d⟩ = ⟨d⟩ := by
  refine strExt ?_
  exact List.filter_eq_self.mpr (fun c hc => by
    simp only [Bool.or_eq_true]
    exact Or.inl (List.all_eq_true.mp hd c hc))

theorem cleanPhone_plus_one {d : List Char} (hd : d.all Char.isDigit = true) :
    cleanPhone ⟨'+' :: '1' :: d⟩ = ⟨'+' :: '1' :: d⟩ := by
  refine strExt ?_
  show List.filter (fun c => c.isDigit || c == '+') ('+' :: '1' :: d) = '+' :: '1' :: d
  rw [List.filter_cons_of_pos (by decide), List.filter_cons_of_pos (by decide)]
  exact congrArg _ (congrArg _ (List.filter_eq_self.mpr (fun c hc => by
    simp only [Bool.or_eq_true]
    exact Or.inl (List.all_eq_true.mp hd c hc))))

theorem beq_plus_of_digit {c : Char} (h : c.isDigit = true) : ('+' == c) = false := by
  cases hc : ('+' == c) with
  | false => rfl
  | true =>
    have hpc : '+' = c := eq_of_beq hc
    rw [← hpc] at h
    exact absurd h (by decide)

theorem plus_not_prefix_digits {d : List Char} (hd : d.all Char.isDigit = true)
    (hne : d ≠ []) : strStartsWith ⟨d⟩ "+" = false := by
  cases d with
  | nil => exact absurd rfl hne
  | cons c cs =>
    have hc : c.isDigit = true := List.all_eq_true.mp hd c (by simp)
    show List.isPrefixOf ['+'] (c :: cs) = false
    simp [List.isPrefixOf, beq_plus_of_digit hc]

theorem prefixPhone_of_plus {s : String} (h : strStartsWith s "+" = true) :
    prefixPhone s = s := by
  unfold prefixPhone; rw [if_pos h]

theorem prefixPhone_ten {d : List Char} (hd : d.all Char.isDigit = true)
    (hlen : d.length = 10) : prefixPhone ⟨d⟩ = "+1" ++ ⟨d⟩ := by
  unfold prefixPhone
  rw [plus_not_prefix_digits hd (by intro h; subst h; simp at hlen)]
  have h11 : ((String.mk d).data.length == 11) = false := by
    show (d.length == 11) = false
    rw [hlen]; rfl
  have h10 : ((String.mk d).data.length == 10) = true := by
    show (d.length == 10) = true
    rw [hlen]; rfl
  simp [h11, h10]

theorem prefixPhone_eleven {d : List Char} (hd : d.all Char.isDigit = true)
    (hlen : d.length = 10) : prefixPhone ⟨'1' :: d⟩ = "+" ++ ⟨'1' :: d⟩ := by
  unfold prefixPhone
  have hall : ('1' :: d).all Char.isDigit = true := by simp [hd]
  rw [plus_not_prefix_digits hall (by simp)]
  have hpre : strStartsWith ⟨'1' :: d⟩ "1" = true := by
    show List.isPrefixOf ['1'] ('1' :: d) = true
    simp [List.isPrefixOf]
  have h2 : (strStartsWith ⟨'1' :: d⟩ "1" && ((String.mk ('1' :: d)).data.length == 11)) = true := by
    rw [hpre]
    show (true && (('1' :: d).length == 11)) = true
    simp [hlen]
  rw [h2]
  simp

theorem libParse_some_elim {s t : String} (h : libParse s = some t) :
    t = s ∧ cleanPhone s = s ∧ prefixPhone s = s ∧ libParse s = some s := by
  have h0 := h
  unfold libParse at h
  split at h
  next rest heq =>
    split at h
    next hcond =>
      injection h with hts
      have hdig : rest.all Char.isDigit = true := ((Bool.and_eq_true _ _).mp hcond).1
      refine ⟨hts.symm, ?_, ?_, ?_⟩
      · refine strExt ?_
        show s.data.filter (fun c => c.isDigit || c == '+') = s.data
        rw [heq, List.filter_cons_of_pos (by decide)]
        exact congrArg _ (List.filter_eq_self.mpr (fun c hc => by
          simp only [Bool.or_eq_true]
          exact Or.inl (List.all_eq_true.mp hdig c hc)))
      · refine prefixPhone_of_plus ?_
        show List.isPrefixOf "+".data s.data = true
        rw [heq]
        simp [List.isPrefixOf]
      · rw [← hts] at h0; exact h0
    next => exact absurd h (by simp)
  next => exact absurd h (by simp)

theorem normalize_ok_elim {v : String → Bool} {s c : String}
    (h : normalize_phone_number v s = .ok c) :
    c = prefixPhone (cleanPhone s) ∧ libParse c = some c ∧ cleanPhone c = c ∧
      prefixPhone c = c ∧
      (v c = true ∨ (strStartsWith c "+1555" && (c.data.length == 12)) = true) := by
  unfold normalize_phone_number at h
  dsimp only at h
  split at h
  next => exact absurd h (by simp)
  next parsed hp =>
    obtain ⟨hps, hclean, hpre, hself⟩ := libParse_some_elim hp
    subst hps
    simp only [libFormatE164] at h
    split at h
    next hv =>
      injection h with hc
      subst hc
      exact ⟨rfl, hself, hclean, hpre, Or.inl hv⟩
    next hv =>
      split at h
      next hcarve =>
        injection h with hc
        subst hc
        exact ⟨rfl, hself, hclean, hpre, Or.inr hcarve⟩
      next => exact absurd h (by simp)

theorem normalize_ok_rerun {v : String → Bool} {s c : String}
    (h : normalize_phone_number v s = .ok c) :
    normalize_phone_number v c = .ok c := by
  obtain ⟨-, hself, hclean, hpre, hbranch⟩ := normalize_ok_elim h
  unfold normalize_phone_number
  dsimp only
  rw [hclean, hpre, hself]
  simp only [libFormatE164]
  rcases hbranch with hv | hcarve
  · simp [hv]
  · cases hv : v c with
    | true => simp [hv]
    | false =>
      have h1 := ((Bool.and_eq_true _ _).mp hcarve).1
      have h2 : c.data.length = 12 := by
        have hb := ((Bool.and_eq_true _ _).mp hcarve).2
        simpa using hb
      simp [hv, h1, h2]

theorem normalize_congr (v : String → Bool) {a b : String}
    (h : prefixPhone (cleanPhone a) = prefixPhone (cleanPhone b)) :
    normalize_phone_number v a = normalize_phone_number v b := by
  unfold normalize_phone_number; rw [h]

/-! ## Claim theorems -/

/-- C6: `normalize_phone_number` follows the stated algorithm — inputs
with the same kept (digit/`+`) characters normalize identically; a bare
10-digit string, its `1`-prefixed 11-digit form and its `+1`-prefixed
form all normalize identically; when the cleaned string has no leading
`+` and neither the `1`+10-digit nor the 10-digit guard fires, `+1` is
still prepended as a last resort; the four sample formats of the same
number all yield `+15551234567`; and `+1555`-range test numbers are
accepted even when the numbering plan rejects them. -/
theorem normalize_canonical_forms (v : String → Bool) :
    (∀ a b, cleanPhone a = cleanPhone b →
      normalize_phone_number v a = normalize_phone_number v b) ∧
    (∀ d : List Char, d.all Char.isDigit = true → d.length = 10 →
      normalize_phone_number v ⟨d⟩ = normalize_phone_number v ⟨'1' :: d⟩ ∧
      normalize_phone_number v ⟨d⟩ = normalize_phone_number v ⟨'+' :: '1' :: d⟩) ∧
    (∀ s, strStartsWith (cleanPhone s) "+" = false →
      (strStartsWith (cleanPhone s) "1" && ((cleanPhone s).data.length == 11)) = false →
      ((cleanPhone s).data.length == 10) = false →
      normalize_phone_number v s = normalize_phone_number v ("+1" ++ cleanPhone s)) ∧
    (normalize_phone_number v "(555) 123-4567" = .ok "+15551234567" ∧
     normalize_phone_number v "555-123-4567" = .ok "+15551234567" ∧
     normalize_phone_number v "5551234567" = .ok "+15551234567" ∧
     normalize_phone_number v "+1-555-123-4567" = .ok "+15551234567") ∧
    (v "+15551234567" = false →
      normalize_phone_number v "5551234567" = .ok "+15551234567") := by
  refine ⟨?_, ?_, ?_, ?_, ?_⟩
  · intro a b h; exact normalize_congr v (by rw [h])
  · intro d hdig hlen
    have hall1 : ('1' :: d).all Char.isDigit = true := by simp [hdig]
    have heq1 : prefixPhone (cleanPhone ⟨d⟩) = prefixPhone (cleanPhone ⟨'1' :: d⟩) := by
      rw [cleanPhone_digits hdig, cleanPhone_digits hall1,
        prefixPhone_ten hdig hlen, prefixPhone_eleven hdig hlen]
      exact strExt (by simp [strAppend_data])
    have heq2 : prefixPhone (cleanPhone ⟨d⟩) = prefixPhone (cleanPhone ⟨'+' :: '1' :: d⟩) := by
      rw [cleanPhone_digits hdig, cleanPhone_plus_one hdig,
        prefixPhone_ten hdig hlen, prefixPhone_of_plus (by
          show List.isPrefixOf ['+'] ('+' :: '1' :: d) = true
          simp [List.isPrefixOf])]
      exact strExt (by simp [strAppend_data])
    exact ⟨normalize_congr v heq1, normalize_congr v heq2⟩
  · intro s hplus hmid hten
    refine normalize_congr v ?_
    have hfilter : List.filter (fun c => c.isDigit || c == '+') (cleanPhone s).data =
        (cleanPhone s).data := by
      refine List.filter_eq_self.mpr (fun c hc => ?_)
      have hm : c ∈ List.filter (fun x => x.isDigit || x == '+') s.data := hc
      exact (List.mem_filter.mp hm).2
    have hc : cleanPhone ("+1" ++ cleanPhone s) = "+1" ++ cleanPhone s := by
      refine strExt ?_
      show List.filter (fun c => c.isDigit || c == '+') ("+1" ++ cleanPhone s).data =
        ("+1" ++ cleanPhone s).data
      rw [strAppend_data]
      show List.filter (fun c => c.isDigit || c == '+') ('+' :: '1' :: (cleanPhone s).data) =
        '+' :: '1' :: (cleanPhone s).data
      rw [List.filter_cons_of_pos (by decide), List.filter_cons_of_pos (by decide), hfilter]
    rw [hc, show prefixPhone ("+1" ++ cleanPhone s) = "+1" ++ cleanPhone s from
      prefixPhone_of_plus (by
        show List.isPrefixOf ['+'] ("+1" ++ cleanPhone s).data = true
        rw [strAppend_data]
        simp [List.isPrefixOf])]
    unfold prefixPhone
    rw [hplus, hmid, hten]
    simp
  · refine ⟨?_, ?_, ?_, ?_⟩ <;>
      (cases h : v "+15551234567" <;>
        simp [normalize_phone_number, cleanPhone, prefixPhone, strStartsWith, libParse,
          libFormatE164, h])
  · intro hv
    simp [normalize_phone_number, cleanPhone, prefixPhone, strStartsWith, libParse,
      libFormatE164, hv]

/-- Witness for C6: the prefixing ladder and the test-range carve-out at
concrete inputs. -/
theorem normalize_canonical_forms_witness :
    normalize_phone_number (fun _ => false) "5551234567" = .ok "+15551234567" :=
  (normalize_canonical_forms (fun _ => false)).2.2.2.2 rfl

/-- C10: normalization is idempotent — whenever it succeeds, its
canonical output re-normalizes to itself. -/
theorem normalize_idempotent (v : String → Bool) (s c : String)
    (h : normalize_phone_number v s = .ok c) :
    normalize_phone_number v c = .ok c :=
  normalize_ok_rerun h

/-- Witness for C10 at the synthetic test number. -/
theorem normalize_idempotent_witness :
    normalize_phone_number (fun _ => false) "+15551234567" = .ok "+15551234567" :=
  normalize_idempotent (fun _ => false) "5551234567" "+15551234567" rfl

theorem find?_isSome_of_mem {α : Type} (p : α → Bool) (l : List α) (a : α)
    (ha : a ∈ l) (hpa : p a = true) : (l.find? p).isSome = true := by
  induction l with
  | nil => exact absurd ha (List.not_mem_nil a)
  | cons b bs ih =>
    cases hpb : p b with
    | true => simp [List.find?, hpb]
    | false =>
      rcases List.mem_cons.mp ha with rfl | hmem
      · rw [hpb] at hpa; exact absurd hpa (by simp)
      · simp [List.find?, hpb]
        simpa using ih hmem

theorem register_ok_elim {v : String → Bool} {db : Db} {fn cs ph : String} {oi : Bool}
    {db' : Db} {r : Registration}
    (h : register_user v db fn cs ph oi = .ok (db', r)) :
    ∃ n, normalize_phone_number v ph = .ok n ∧
      (get_user_by_phone v db n).isSome = false ∧
      r = { id := db.nextId, full_name := fn, call_sign := cs, phone_number := ph,
            phone_normalized := n, opted_in := oi, registration_date := db.clock,
            last_updated := db.clock } ∧
      db' = { rows := db.rows ++ [r], nextId := db.nextId + 1, clock := db.clock + 1 } := by
  unfold register_user at h
  split at h
  next => exact absurd h (by simp)
  next n hn =>
    split at h
    next => exact absurd h (by simp)
    next hns =>
      injection h with hpair
      injection hpair with hdb hr
      refine ⟨n, hn, by simpa using hns, hr.symm, ?_⟩
      rw [← hdb, hr]

/-- C1: the registration store keeps at most one registration per
normalized phone — every operation preserves `phone_normalized`
uniqueness, every pre-existing row survives every operation with its
`id` and `phone_normalized` unchanged (no deletion, immutable key), and
`register_user` fails with the already-registered error, leaving the
store untouched, whenever any submission normalizing to an existing
row's phone is registered again. -/
theorem registration_store_invariant (v : String → Bool) (db : Db) (hinv : DbInv db) :
    (∀ op : DbOp, DbInv (dbStep v db op) ∧
      ∀ r ∈ db.rows, ∃ r' ∈ (dbStep v db op).rows,
        r'.id = r.id ∧ r'.phone_normalized = r.phone_normalized) ∧
    (∀ fn cs phone oi n, normalize_phone_number v phone = .ok n →
      (∃ r ∈ db.rows, r.phone_normalized = n) →
      register_user v db fn cs phone oi = .error "Phone number already registered" ∧
      dbStep v db (.registerOp fn cs phone oi) = db) := by
  constructor
  · intro op
    cases op with
    | registerOp fn cs ph oi =>
      cases hreg : register_user v db fn cs ph oi with
      | error e =>
        have hstep : dbStep v db (.registerOp fn cs ph oi) = db := by
          show (match register_user v db fn cs ph oi with
            | .ok (db', _) => db' | .error _ => db) = db
          rw [hreg]
        rw [hstep]
        exact ⟨hinv, fun r hr => ⟨r, hr, rfl, rfl⟩⟩
      | ok pair =>
        obtain ⟨db', newr⟩ := pair
        obtain ⟨n, hn, hlook, hr, hdb'⟩ := register_ok_elim hreg
        have hstep : dbStep v db (.registerOp fn cs ph oi) = db' := by
          show (match register_user v db fn cs ph oi with
            | .ok (db', _) => db' | .error _ => db) = db'
          rw [hreg]
        have hren : normalize_phone_number v n = .ok n := normalize_ok_rerun hn
        have hnone : ∀ x ∈ db.rows, (x.phone_normalized == n) = false := by
          intro x hx
          cases hpx : (x.phone_normalized == n) with
          | false => rfl
          | true =>
            have hsome :=
              find?_isSome_of_mem (fun r => r.phone_normalized == n) db.rows x hx hpx
            rw [show (get_user_by_phone v db n) =
                db.rows.find? (fun r => r.phone_normalized == n) by
              unfold get_user_by_phone; rw [hren], hsome] at hlook
            exact absurd hlook (by simp)
        rw [hstep, hdb']
        constructor
        · unfold DbInv at hinv ⊢
          rw [List.map_append, List.nodup_append]
          refine ⟨hinv, by simp, ?_⟩
          intro a ha hb
          simp only [List.map_cons, List.map_nil, List.mem_singleton] at hb
          obtain ⟨x, hx, hxa⟩ := List.mem_map.mp ha
          have hfalse := hnone x hx
          rw [hxa, hb, hr] at hfalse
          simp at hfalse
        · intro r hrr
          exact ⟨r, List.mem_append_left _ hrr, rfl, rfl⟩
    | setOptInOp ph oi =>
      have hstep : dbStep v db (.setOptInOp ph oi) = (update_opt_in_status v db ph oi).1 :=
        rfl
      rw [hstep]
      cases hn : normalize_phone_number v ph with
      | error e =>
        have hupd : (update_opt_in_status v db ph oi).1 = db := by
          unfold update_opt_in_status
          rw [hn]
        rw [hupd]
        exact ⟨hinv, fun r hr => ⟨r, hr, rfl, rfl⟩⟩
      | ok n =>
        have hupd : (update_opt_in_status v db ph oi).1 =
            { rows := db.rows.map (fun r =>
                if r.phone_normalized == n then
                  { r with opted_in := oi, last_updated := db.clock }
                else r),
              nextId := db.nextId, clock := db.clock + 1 } := by
          unfold update_opt_in_status
          rw [hn]
        rw [hupd]
        have hpn : ∀ r : Registration,
            (if r.phone_normalized == n then
              { r with opted_in := oi, last_updated := db.clock }
            else r).phone_normalized = r.phone_normalized := by
          intro r; split <;> rfl
        have hid : ∀ r : Registration,
            (if r.phone_normalized == n then
              { r with opted_in := oi, last_updated := db.clock }
            else r).id = r.id := by
          intro r; split <;> rfl
        constructor
        · unfold DbInv at hinv ⊢
          dsimp only
          rw [List.map_map]
          have hcomp : (Registration.phone_normalized ∘ fun r =>
              if r.phone_normalized == n then
                { r with opted_in := oi, last_updated := db.clock }
              else r) = Registration.phone_normalized := by
            funext r; exact hpn r
          rw [hcomp]
          exact hinv
        · intro r hr
          exact ⟨_, List.mem_map_of_mem _ hr, hid r, hpn r⟩
  · intro fn cs phone oi n hn hex
    obtain ⟨r, hr, hrn⟩ := hex
    have hren : normalize_phone_number v n = .ok n := normalize_ok_rerun hn
    have hlook : (get_user_by_phone v db n).isSome = true := by
      unfold get_user_by_phone
      rw [hren]
      exact find?_isSome_of_mem _ db.rows r hr (by simp [hrn])
    have hreg : register_user v db fn cs phone oi =
        .error "Phone number already registered" := by
      unfold register_user
      rw [hn]
      dsimp only
      rw [hlook]
      rfl
    refine ⟨hreg, ?_⟩
    show (match register_user v db fn cs phone oi with
      | .ok (db', _) => db' | .error _ => db) = db
    rw [hreg]

/-- Witness for C1: re-registering the sample number in a different
format fails and the store is unchanged. -/
theorem registration_store_invariant_witness :
    DbInv (sampleDb true) ∧
    register_user alwaysValid (sampleDb true) "Jane Smith" "K2XYZ" "555-123-4567" true =
      .error "Phone number already registered" := by
  refine ⟨by decide, ?_⟩
  exact ((registration_store_invariant alwaysValid (sampleDb true) (by decide)).2
    "Jane Smith" "K2XYZ" "555-123-4567" true "+15551234567" rfl
    ⟨sampleRow true, by simp [sampleDb], rfl⟩).1

theorem lookup_some_mem_keys {β : Type} (l : List (String × β)) (a : String) (b : β)
    (h : l.lookup a = some b) : a ∈ l.map Prod.fst := by
  induction l with
  | nil => simp [List.lookup] at h
  | cons p ps ih =>
    obtain ⟨k, v⟩ := p
    cases hak : a == k with
    | true => simp [eq_of_beq hak]
    | false =>
      simp only [List.lookup, hak] at h
      simp only [List.map_cons, List.mem_cons]
      exact Or.inr (ih h)

theorem mem_keys_lookup_isSome {β : Type} (l : List (String × β)) (a : String)
    (h : a ∈ l.map Prod.fst) : (l.lookup a).isSome = true := by
  induction l with
  | nil => simp at h
  | cons p ps ih =>
    obtain ⟨k, v⟩ := p
    cases hak : a == k with
    | true => simp [List.lookup, hak]
    | false =>
      have hmem : a ∈ ps.map Prod.fst := by
        rcases List.mem_cons.mp (show a ∈ k :: ps.map Prod.fst from h) with heq | hmem
        · rw [heq] at hak; simp at hak
        · exact hmem
      simp only [List.lookup, hak]
      exact ih hmem

/-- C8: the resolver prefers an exact-case hit in `TIMEZONE_MAP`; every
standard/daylight pair and alias pair resolves to the same underlying
rule; a code resolves successfully exactly when its upper-cased form is
in the vocabulary, and every other code fails with the
unsupported-timezone error. -/
theorem timezone_resolution_spec :
    (∀ code tz, TIMEZONE_MAP.lookup code = some tz →
      get_timezone_from_code code = .ok tz) ∧
    (get_timezone_from_code "EST" = .ok .usEastern ∧
     get_timezone_from_code "EDT" = .ok .usEastern ∧
     get_timezone_from_code "CST" = .ok .usCentral ∧
     get_timezone_from_code "CDT" = .ok .usCentral ∧
     get_timezone_from_code "MST" = .ok .usMountain ∧
     get_timezone_from_code "MDT" = .ok .usMountain ∧
     get_timezone_from_code "PST" = .ok .usPacific ∧
     get_timezone_from_code "PDT" = .ok .usPacific ∧
     get_timezone_from_code "AKST" = .ok .usAlaska ∧
     get_timezone_from_code "AKDT" = .ok .usAlaska ∧
     get_timezone_from_code "ChST" = .ok .pacificGuam ∧
     get_timezone_from_code "GST" = .ok .pacificGuam ∧
     get_timezone_from_code "UTC" = .ok .utc ∧
     get_timezone_from_code "GMT" = .ok .utc) ∧
    (∀ code, strUpper code ∈ upperTimezoneCodes →
      ∃ tz, get_timezone_from_code code = .ok tz) ∧
    (∀ code, strUpper code ∉ upperTimezoneCodes →
      get_timezone_from_code code = .error ()) := by
  have hupperKeys : (TIMEZONE_MAP.map (fun p => (strUpper p.1, p.2))).map Prod.fst =
      upperTimezoneCodes := by decide
  refine ⟨?_, ?_, ?_, ?_⟩
  · intro code tz h
    unfold get_timezone_from_code
    rw [h]
  · exact ⟨rfl, rfl, rfl, rfl, rfl, rfl, rfl, rfl, rfl, rfl, rfl, rfl, rfl, rfl⟩
  · intro code hmem
    have hsome : ((TIMEZONE_MAP.map (fun p => (strUpper p.1, p.2))).lookup
        (strUpper code)).isSome = true := by
      refine mem_keys_lookup_isSome _ _ ?_
      rw [hupperKeys]
      exact hmem
    unfold get_timezone_from_code
    cases hexact : TIMEZONE_MAP.lookup code with
    | some tz => exact ⟨tz, rfl⟩
    | none =>
      obtain ⟨tz, htz⟩ := Option.isSome_iff_exists.mp hsome
      rw [htz]
      exact ⟨tz, rfl⟩
  · intro code hmem
    have hexact : TIMEZONE_MAP.lookup code = none := by
      cases hexact : TIMEZONE_MAP.lookup code with
      | none => rfl
      | some tz =>
        have hk : code ∈ TIMEZONE_MAP.map Prod.fst :=
          lookup_some_mem_keys _ _ _ hexact
        have : strUpper code ∈ upperTimezoneCodes := by
          have h16 : code ∈ ["EST", "EDT", "CST", "CDT", "MST", "MDT", "PST", "PDT",
              "AKST", "AKDT", "HST", "AST", "ChST", "GST", "UTC", "GMT"] := by
            have hkeys : TIMEZONE_MAP.map Prod.fst =
                ["EST", "EDT", "CST", "CDT", "MST", "MDT", "PST", "PDT",
                 "AKST", "AKDT", "HST", "AST", "ChST", "GST", "UTC", "GMT"] := by decide
            rw [← hkeys]; exact hk
          simp only [List.mem_cons, List.not_mem_nil, or_false] at h16
          rcases h16 with rfl | rfl | rfl | rfl | rfl | rfl | rfl | rfl | rfl | rfl |
            rfl | rfl | rfl | rfl | rfl | rfl <;> decide
        exact absurd this hmem
    have hupper : (TIMEZONE_MAP.map (fun p => (strUpper p.1, p.2))).lookup
        (strUpper code) = none := by
      cases hup : (TIMEZONE_MAP.map (fun p => (strUpper p.1, p.2))).lookup
          (strUpper code) with
      | none => rfl
      | some tz =>
        have hk := lookup_some_mem_keys _ _ _ hup
        rw [hupperKeys] at hk
        exact absurd hk hmem
    unfold get_timezone_from_code
    rw [hexact, hupper]

/-- Witness for C8: the mixed-case Chamorro code resolves by the
exact-case pass, and a lower-cased code by the folded pass. -/
theorem timezone_resolution_spec_witness :
    get_timezone_from_code "ChST" = .ok .pacificGuam ∧
    get_timezone_from_code "chst" = .ok .pacificGuam :=
  ⟨timezone_resolution_spec.1 "ChST" .pacificGuam rfl, rfl⟩

theorem listContains_nil (l : List Char) : listContains [] l = true := by
  cases l <;> simp [listContains, List.isPrefixOf]

theorem listContains_of_isPrefixOf {pat l : List Char} (h : pat.isPrefixOf l = true) :
    listContains pat l = true := by
  cases l with
  | nil =>
    cases pat with
    | nil => rfl
    | cons c cs => simp [List.isPrefixOf] at h
  | cons c cs => simp [listContains, h]

theorem isPrefixOf_self_append (p r : List Char) : p.isPrefixOf (p ++ r) = true := by
  induction p with
  | nil => simp [List.isPrefixOf]
  | cons c cs ih => simp [List.isPrefixOf, ih]

theorem isPrefixOf_append_append (x y r : List Char) :
    (x ++ y).isPrefixOf (x ++ (y ++ r)) = true := by
  rw [← List.append_assoc]
  exact isPrefixOf_self_append _ _

theorem listContains_prepend {pat b : List Char} (h : listContains pat b = true)
    (a : List Char) : listContains pat (a ++ b) = true := by
  induction a with
  | nil => simpa using h
  | cons c cs ih => simp [listContains, ih]

theorem strContains_append_right {t pat : String} (h : strContains t pat = true)
    (s : String) : strContains (s ++ t) pat = true := by
  unfold strContains at h ⊢
  rw [strAppend_data]
  exact listContains_prepend h _

theorem strAppend_assoc (a b c : String) : a ++ b ++ c = a ++ (b ++ c) :=
  strExt (by simp [strAppend_data])

theorem strContains_here (F V rest pat : String) (hFV : pat.data = F.data ++ V.data) :
    strContains (F ++ (V ++ rest)) pat = true := by
  unfold strContains
  apply listContains_of_isPrefixOf
  rw [strAppend_data, strAppend_data, hFV]
  exact isPrefixOf_append_append _ _ _

/-- C9: the formatter fails exactly when the record's update timestamp
is missing or unparsable; whenever the timestamp parses, formatting
succeeds and every absent data field is rendered as its labeled `N/A`
line. -/
theorem formatter_placeholder_spec (parseUpdate : String → TZRule → Option String)
    (solar : SolarData) (tz : TZRule) :
    (format_hampuff_response parseUpdate solar tz = .error () ↔
      (solar.updated = none ∨
        ∃ u, solar.updated = some u ∧ parseUpdate u tz = none)) ∧
    (∀ u t, solar.updated = some u → parseUpdate u tz = some t →
      ∃ out, format_hampuff_response parseUpdate solar tz = .ok out ∧
        (solar.solarflux = none → strContains out "\tSolar Flux  = N/A" = true) ∧
        (solar.aindex = none → strContains out "\tA Index     = N/A" = true) ∧
        (solar.kindex = none → strContains out "\tK Index     = N/A" = true) ∧
        (solar.sunspots = none → strContains out "\tSunspot #   = N/A" = true) ∧
        (solar.muf = none → strContains out "\tMUF         = N/A" = true) ∧
        (solar.xray = none → strContains out "\tXRay        = N/A" = true) ∧
        (solar.solarwind = none → strContains out "\tSolar Winds = N/A" = true)) := by
  constructor
  · cases hu : solar.updated with
    | none => simp [format_hampuff_response, hu]
    | some u =>
      cases hp : parseUpdate u tz with
      | none => simp [format_hampuff_response, hu, hp]
      | some t => simp [format_hampuff_response, hu, hp]
  · intro u t hu hp
    refine ⟨_, by rw [format_hampuff_response, hu]; dsimp only; rw [hp], ?_, ?_, ?_, ?_, ?_, ?_, ?_⟩
    · intro hnone
      rw [hnone]
      simp only [Option.getD_none, strAppend_assoc]
      iterate 5 apply strContains_append_right
      exact strContains_here _ _ _ _ (by decide)
    · intro hnone
      rw [hnone]
      simp only [Option.getD_none, strAppend_assoc]
      iterate 8 apply strContains_append_right
      exact strContains_here _ _ _ _ (by decide)
    · intro hnone
      rw [hnone]
      simp only [Option.getD_none, strAppend_assoc]
      iterate 11 apply strContains_append_right
      exact strContains_here _ _ _ _ (by decide)
    · intro hnone
      rw [hnone]
      simp only [Option.getD_none, strAppend_assoc]
      iterate 14 apply strContains_append_right
      exact strContains_here _ _ _ _ (by decide)
    · intro hnone
      rw [hnone]
      simp only [Option.getD_none, strAppend_assoc]
      iterate 17 apply strContains_append_right
      exact strContains_here _ _ _ _ (by decide)
    · intro hnone
      rw [hnone]
      simp only [Option.getD_none, strAppend_assoc]
      iterate 20 apply strContains_append_right
      exact strContains_here _ _ _ _ (by decide)
    · intro hnone
      rw [hnone]
      simp only [Option.getD_none, strAppend_assoc]
      iterate 23 apply strContains_append_right
      decide

/-- Witness for C9: a parsable timestamp with every field missing
formats successfully and renders the solar-flux placeholder line. -/
theorem formatter_placeholder_spec_witness :
    ∃ out, format_hampuff_response (fun _ _ => some "Tue 26 Sep 14:30") solarAllMissing .utc =
        .ok out ∧ strContains out "\tSolar Flux  = N/A" = true := by
  obtain ⟨out, hout, h1, -⟩ :=
    (formatter_placeholder_spec (fun _ _ => some "Tue 26 Sep 14:30") solarAllMissing .utc).2
      "26 Sep 2023 1830 GMT" "Tue 26 Sep 14:30" rfl rfl
  exact ⟨out, hout, h1 rfl⟩

/-- C5: step-6 classification order — profanity token A wins first,
then profanity token B, then the exact-length-4 rule; consequently any
4-character profanity-free body gets the airport message, and in
particular an opted-in sender texting just `prop` gets the airport
message, not a propagation reply or error. -/
theorem classification_order :
    (∀ (fetch : TZRule → Except Unit String) body bodyLower,
      strContains bodyLower "fuck" = true →
      generate_response fetch body bodyLower = "Go fuck yourself, too") ∧
    (∀ (fetch : TZRule → Except Unit String) body bodyLower,
      strContains bodyLower "fuck" = false → strContains bodyLower "shit" = true →
      generate_response fetch body bodyLower = "Go shit your pants") ∧
    (∀ (fetch : TZRule → Except Unit String) body bodyLower,
      strContains bodyLower "fuck" = false → strContains bodyLower "shit" = false →
      bodyLower.data.length = 4 →
      generate_response fetch body bodyLower = AIRPUFF_MESSAGE) ∧
    (∀ (backend : SmsBackend) (fetch : TZRule → Except Unit String) sender,
      backend.isOptedIn sender = .ok true →
      handle_sms_request backend fetch "prop" sender = AIRPUFF_MESSAGE) := by
  refine ⟨?_, ?_, ?_, ?_⟩
  · intro fetch body bodyLower h
    unfold generate_response
    rw [h]
    rfl
  · intro fetch body bodyLower hf hs
    unfold generate_response
    rw [hf, hs]
    rfl
  · intro fetch body bodyLower hf hs hlen
    unfold generate_response
    rw [hf, hs, hlen]
    rfl
  · intro backend fetch sender hopt
    have hred : handle_sms_request backend fetch "prop" sender =
        afterCommandsFlow backend fetch sender "prop" "prop" := rfl
    rw [hred]
    unfold afterCommandsFlow
    rw [show ((("prop" : String) == "help") || (("prop" : String) == "?")) = false from rfl]
    rw [hopt]
    rfl

/-- Witness for C5: an opted-in sender texting `prop` receives the
airport message. -/
theorem classification_order_witness :
    handle_sms_request optedInBackend fetchOk "prop" "+15551234567" = AIRPUFF_MESSAGE :=
  classification_order.2.2.2 optedInBackend fetchOk "+15551234567" rfl

/-- C7: for an opted-in sender whose case-folded body contains `hampuff`
and who was not caught by an earlier classification step, the legacy
command succeeds exactly when the (case-folded) body is exactly 8
characters, begins with `hampuff` and has `e` or `p` as 8th character;
on success the reply carries the consent notice, otherwise it is the
fixed apology, never raw error text. -/
theorem legacy_hampuff_spec (fetch : TZRule → Except Unit String)
    (hfetch : ∀ tz, ∃ d, fetch tz = .ok d) (body : String)
    (hfuck : strContains (strLower body) "fuck" = false)
    (hshit : strContains (strLower body) "shit" = false)
    (hlen4 : ((strLower body).data.length == 4) = false)
    (hprop : parse_propagation_command (strLower body) = none)
    (hham : strContains (strLower body) "hampuff" = true) :
    ((∃ d, get_hampuff_data fetch body = .ok d) ↔ legacyCommandOk body) ∧
    (legacyCommandOk body →
      ∃ d, generate_response fetch body (strLower body) = d ++ "\n\n" ++ CONSENT_MESSAGE) ∧
    (¬ legacyCommandOk body →
      generate_response fetch body (strLower body) =
        "Sorry, unable to retrieve hampuff data at this time.") := by
  have hgen : generate_response fetch body (strLower body) =
      (match get_hampuff_data fetch body with
       | .ok d => d ++ "\n\n" ++ CONSENT_MESSAGE
       | .error _ => "Sorry, unable to retrieve hampuff data at this time.") := by
    unfold generate_response
    rw [hfuck, hshit, hlen4, hprop, hham]
    rfl
  have hiff : (∃ d, get_hampuff_data fetch body = .ok d) ↔ legacyCommandOk body := by
    cases hval : validate_hampuff_args body with
    | false =>
      have hget : get_hampuff_data fetch body = .error () := by
        unfold get_hampuff_data
        rw [hval]
        rfl
      constructor
      · rintro ⟨d, hd⟩
        rw [hget] at hd
        exact absurd hd (by simp)
      · rintro ⟨hlen8, hstart, -⟩
        have : validate_hampuff_args body = true := by
          unfold validate_hampuff_args
          rw [hlen8, hstart]
          rfl
        rw [hval] at this
        exact absurd this (by simp)
    | true =>
      have hand := (Bool.and_eq_true _ _).mp (by
        unfold validate_hampuff_args at hval
        exact hval)
      have hlen8 : body.data.length = 8 := by
        have := hand.1
        simpa using this
      have hstart : strStartsWith (strLower body) "hampuff" = true := hand.2
      cases hg : body.data.get? 7 with
      | none =>
        have : body.data.length ≤ 7 := List.get?_eq_none.mp hg
        omega
      | some c =>
        have hget : get_hampuff_data fetch body =
            (if c.toLower == 'e' then fetch .usEastern
             else if c.toLower == 'p' then fetch .usPacific
             else .error ()) := by
          unfold get_hampuff_data
          rw [hval]
          show (legacy_timezone body).bind fetch = _
          unfold legacy_timezone
          rw [hg]
          dsimp only
          by_cases he : (c.toLower == 'e') = true
          · rw [if_pos he, if_pos he]; rfl
          · rw [if_neg he, if_neg he]
            by_cases hp : (c.toLower == 'p') = true
            · rw [if_pos hp, if_pos hp]; rfl
            · rw [if_neg hp, if_neg hp]; rfl
        constructor
        · rintro ⟨d, hd⟩
          rw [hget] at hd
          by_cases he : (c.toLower == 'e') = true
          · exact ⟨hlen8, hstart, c, hg, Or.inl (eq_of_beq he)⟩
          · rw [if_neg he] at hd
            by_cases hp : (c.toLower == 'p') = true
            · exact ⟨hlen8, hstart, c, hg, Or.inr (eq_of_beq hp)⟩
            · rw [if_neg hp] at hd
              exact absurd hd (by simp)
        · rintro ⟨-, -, c', hc', hep⟩
          rw [hg] at hc'
          injection hc' with hcc
          subst hcc
          rw [hget]
          rcases hep with he | hp
          · rw [if_pos (by rw [he]; rfl)]
            exact hfetch .usEastern
          · by_cases he : (c.toLower == 'e') = true
            · rw [if_pos he]
              exact hfetch .usEastern
            · rw [if_neg he, if_pos (by rw [hp]; rfl)]
              exact hfetch .usPacific
  refine ⟨hiff, ?_, ?_⟩
  · intro hok
    obtain ⟨d, hd⟩ := hiff.mpr hok
    rw [hgen, hd]
    exact ⟨d, rfl⟩
  · intro hnot
    have herr : get_hampuff_data fetch body = .error () := by
      cases hge : get_hampuff_data fetch body with
      | ok d => exact absurd (hiff.mp ⟨d, hge⟩) hnot
      | error e => cases e; rfl
    rw [hgen, herr]

/-- Witness for C7: `hampuffe` succeeds with the consent notice
appended. -/
theorem legacy_hampuff_spec_witness :
    ∃ d, generate_response fetchOk "hampuffe" (strLower "hampuffe") =
      d ++ "\n\n" ++ CONSENT_MESSAGE :=
  (legacy_hampuff_spec fetchOk (fun _ => ⟨"SOLAR-REPORT", rfl⟩) "hampuffe"
    rfl rfl rfl rfl rfl).2.1 ⟨rfl, rfl, 'e', rfl, Or.inl rfl⟩

theorem afterCommands_gate_blocked {backend : SmsBackend} {sender : String}
    (hgate : backend.isOptedIn sender = .ok false ∨ backend.isOptedIn sender = .error ())
    (f₁ f₂ : TZRule → Except Unit String) (body bodyLower : String) :
    afterCommandsFlow backend f₁ sender body bodyLower =
      afterCommandsFlow backend f₂ sender body bodyLower := by
  unfold afterCommandsFlow
  split
  · rfl
  · rcases hgate with h | h <;> rw [h]

/-- C2 (amended): a sender who is not opted in and whose trimmed,
case-folded body is none of the six command words receives the
not-registered refusal; if the opt-in check raises, the reply is the
fixed service-unavailable message (fail closed) — and whenever the gate
blocks (false or error), the reply is independent of the
propagation-fetch collaborator, i.e. no data query can influence it. -/
theorem optin_gate_fail_closed :
    (∀ (backend : SmsBackend) (fetch : TZRule → Except Unit String) fullBody sender,
      fullBody ≠ "" →
      strLower (strTrim fullBody) ∉
        (["stop", "unregister", "start", "register", "help", "?"] : List String) →
      backend.isOptedIn sender = .ok false →
      handle_sms_request backend fetch fullBody sender = MSG_NOT_OPTED_IN) ∧
    (∀ (backend : SmsBackend) (fetch : TZRule → Except Unit String) fullBody sender,
      fullBody ≠ "" →
      strLower (strTrim fullBody) ∉
        (["stop", "unregister", "start", "register", "help", "?"] : List String) →
      backend.isOptedIn sender = .error () →
      handle_sms_request backend fetch fullBody sender = MSG_UNAVAILABLE) ∧
    (∀ (backend : SmsBackend) (f₁ f₂ : TZRule → Except Unit String) fullBody sender,
      (backend.isOptedIn sender = .ok false ∨ backend.isOptedIn sender = .error ()) →
      handle_sms_request backend f₁ fullBody sender =
        handle_sms_request backend f₂ fullBody sender) := by
  have hmain : ∀ (backend : SmsBackend) (fetch : TZRule → Except Unit String)
      fullBody sender (res : Except Unit Bool) (msg : String),
      fullBody ≠ "" →
      strLower (strTrim fullBody) ∉
        (["stop", "unregister", "start", "register", "help", "?"] : List String) →
      backend.isOptedIn sender = res →
      (match res with
        | .ok true => False
        | .ok false => msg = MSG_NOT_OPTED_IN
        | .error _ => msg = MSG_UNAVAILABLE) →
      handle_sms_request backend fetch fullBody sender = msg := by
    intro backend fetch fullBody sender res msg hne hnotcmd hopt hres
    simp only [List.mem_cons, List.not_mem_nil, or_false, not_or] at hnotcmd
    obtain ⟨h1, h2, h3, h4, h5, h6⟩ := hnotcmd
    unfold handle_sms_request
    dsimp only
    rw [if_neg (by simpa using hne)]
    rw [if_neg (by
      simp only [Bool.or_eq_true, beq_iff_eq, not_or]
      exact ⟨h1, h2⟩)]
    rw [if_neg (by
      simp only [Bool.or_eq_true, beq_iff_eq, not_or]
      exact ⟨h3, h4⟩)]
    unfold afterCommandsFlow
    rw [if_neg (by
      simp only [Bool.or_eq_true, beq_iff_eq, not_or]
      exact ⟨h5, h6⟩)]
    rw [hopt]
    cases res with
    | ok b =>
      cases b with
      | true => exact hres.elim
      | false => exact hres.symm
    | error e => cases e; exact hres.symm
  refine ⟨?_, ?_, ?_⟩
  · intro backend fetch fullBody sender hne hcmd hopt
    exact hmain backend fetch fullBody sender (.ok false) MSG_NOT_OPTED_IN hne hcmd hopt rfl
  · intro backend fetch fullBody sender hne hcmd hopt
    exact hmain backend fetch fullBody sender (.error ()) MSG_UNAVAILABLE hne hcmd hopt rfl
  · intro backend f₁ f₂ fullBody sender hgate
    unfold handle_sms_request
    dsimp only
    by_cases h0 : (fullBody == "") = true
    · rw [if_pos h0, if_pos h0]
    · rw [if_neg h0, if_neg h0]
      by_cases h1 : ((strLower (strTrim fullBody) == "stop") ||
          (strLower (strTrim fullBody) == "unregister")) = true
      · rw [if_pos h1]
        rw [if_pos h1]
      · rw [if_neg h1, if_neg h1]
        by_cases h2 : ((strLower (strTrim fullBody) == "start") ||
            (strLower (strTrim fullBody) == "register")) = true
        · rw [if_pos h2]
          rw [if_pos h2]
          cases hg : backend.getUser sender with
          | error e => rfl
          | ok b =>
            cases b with
            | false => rfl
            | true =>
              cases hu : backend.updateOptIn sender true with
              | error e => rfl
              | ok b2 =>
                cases b2 with
                | true => rfl
                | false =>
                  exact afterCommands_gate_blocked hgate f₁ f₂ (strTrim fullBody)
                    (strLower (strTrim fullBody))
        · rw [if_neg h2, if_neg h2]
          exact afterCommands_gate_blocked hgate f₁ f₂ (strTrim fullBody)
            (strLower (strTrim fullBody))

/-- Witness for C2: an unregistered sender asking for propagation data
is refused. -/
theorem optin_gate_fail_closed_witness :
    handle_sms_request notOptedInBackend fetchOk "prop est" "+15551234567" =
      MSG_NOT_OPTED_IN :=
  optin_gate_fail_closed.1 notOptedInBackend fetchOk "prop est" "+15551234567"
    (by decide) (by decide) rfl

/-- Counterexample for C2 as stated: when the opt-in check raises, the
reply is the service-unavailable message, which is not the
not-registered refusal text (and an empty body also escapes the
refusal). -/
theorem optin_gate_fail_closed_cex :
    handle_sms_request errBackend fetchOk "prop est" "+15551234567" = MSG_UNAVAILABLE ∧
    MSG_UNAVAILABLE ≠ MSG_NOT_OPTED_IN ∧
    handle_sms_request notOptedInBackend fetchOk "" "+15551234567" = MSG_NO_BODY ∧
    MSG_NO_BODY ≠ MSG_NOT_OPTED_IN :=
  ⟨rfl, by decide, rfl, by decide⟩

/-- C3 (amended): `stop`/`unregister` are handled before the opt-in gate
and never require prior opt-in; when the store operation completes, the
reply is the unregistration confirmation exactly when a registration row
matched (regardless of its current opt-in flag — re-opting-out a
registered, already-opted-out number repeats the confirmation), and the
"no action needed" variant exactly when no row exists. -/
theorem stop_command_spec :
    (∀ (backend : SmsBackend) (fetch : TZRule → Except Unit String) fullBody sender b,
      (strLower (strTrim fullBody) = "stop" ∨ strLower (strTrim fullBody) = "unregister") →
      backend.updateOptIn sender false = .ok b →
      handle_sms_request backend fetch fullBody sender =
        (if b then MSG_UNREGISTERED_CONFIRM else MSG_NO_ACTION)) ∧
    (∀ (v : String → Bool) (db : Db) (fetch : TZRule → Except Unit String) fullBody sender n,
      (strLower (strTrim fullBody) = "stop" ∨ strLower (strTrim fullBody) = "unregister") →
      normalize_phone_number v sender = .ok n →
      handle_sms_request (dbBackend v db) fetch fullBody sender =
        (if db.rows.any (fun r => r.phone_normalized == n) then MSG_UNREGISTERED_CONFIRM
         else MSG_NO_ACTION)) := by
  have hpart1 : ∀ (backend : SmsBackend) (fetch : TZRule → Except Unit String)
      fullBody sender b,
      (strLower (strTrim fullBody) = "stop" ∨ strLower (strTrim fullBody) = "unregister") →
      backend.updateOptIn sender false = .ok b →
      handle_sms_request backend fetch fullBody sender =
        (if b then MSG_UNREGISTERED_CONFIRM else MSG_NO_ACTION) := by
    intro backend fetch fullBody sender b hcmd hupd
    have hne : fullBody ≠ "" := by
      intro h
      subst h
      rcases hcmd with h | h <;> exact absurd h (by decide)
    unfold handle_sms_request
    dsimp only
    rw [if_neg (by simpa using hne)]
    rw [if_pos (by
      rcases hcmd with h | h <;> simp [h])]
    rw [hupd]
    cases b <;> rfl
  refine ⟨hpart1, ?_⟩
  intro v db fetch fullBody sender n hcmd hn
  have hb : (update_opt_in_status v db sender false).2 =
      db.rows.any (fun r => r.phone_normalized == n) := by
    unfold update_opt_in_status
    rw [hn]
  have hupd : (dbBackend v db).updateOptIn sender false =
      .ok (db.rows.any (fun r => r.phone_normalized == n)) := by
    show Except.ok ((update_opt_in_status v db sender false).2) = _
    rw [hb]
  exact hpart1 (dbBackend v db) fetch fullBody sender _ hcmd hupd

/-- Witness for C3: `stop` from a number with no registration row yields
the "no action needed" variant. -/
theorem stop_command_spec_witness :
    handle_sms_request (dbBackend alwaysValid emptyDb) fetchOk "stop" "+15551234567" =
      MSG_NO_ACTION :=
  stop_command_spec.2 alwaysValid emptyDb fetchOk "stop" "+15551234567" "+15551234567"
    (Or.inl rfl) rfl

/-- Counterexample for C3 as stated: opting out a registered number that
is already opted out matches the UPDATE row, so the reply is the
unregistration confirmation again, not the "no action needed" variant
(which is reserved for numbers with no registration row). -/
theorem stop_command_spec_cex :
    handle_sms_request (dbBackend alwaysValid (sampleDb false)) fetchOk "stop" "+15551234567" =
      MSG_UNREGISTERED_CONFIRM ∧
    MSG_UNREGISTERED_CONFIRM ≠ MSG_NO_ACTION :=
  ⟨rfl, by decide⟩

/-- C4 (code bug): the SMS propagation parser upper-cases the second
token and tests membership in a list containing the mixed-case entry
`ChST`, so no message — `prop ChST` in any letter case — can ever select
the Guam Chamorro code, and such messages fall through to the default
wrong-number reply; yet the resolver accepts `chst`/`CHST`
case-insensitively, the help text advertises `ChST`, and every other
vocabulary code (including the Guam alias `GST`) parses fine in any
letter case. -/
theorem propagation_chst_unreachable :
    strLower (strTrim "prop ChST") = "prop chst" ∧
    parse_propagation_command "prop chst" = none ∧
    parse_propagation_command "propagation chst" = none ∧
    handle_sms_request (dbBackend alwaysValid (sampleDb true)) fetchOk "prop ChST"
      "+15551234567" = DEFAULT_WRONG_NUMBER_MESSAGE ∧
    handle_sms_request (dbBackend alwaysValid (sampleDb true)) fetchOk "PROP CHST"
      "+15551234567" = DEFAULT_WRONG_NUMBER_MESSAGE ∧
    get_timezone_from_code "chst" = .ok .pacificGuam ∧
    tzResolveOk (get_timezone_from_code "CHST") = true ∧
    strContains helpMessage "ChST" = true ∧
    parse_propagation_command "prop gst" = some "GST" ∧
    (∀ code ∈ valid_timezones, code ≠ "ChST" →
      parse_propagation_command ("prop " ++ strLower code) = some (strUpper code) ∧
      tzResolveOk (get_timezone_from_code (strUpper code)) = true) := by
  refine ⟨rfl, rfl, rfl, rfl, rfl, rfl, rfl, ?_, rfl, by decide⟩
  set_option maxRecDepth 8000 in rfl
